import Mathlib

/-!
Verification development for the resquared-automation repository.

Part 1 models the advanced DOM snapshot builder (`buildAdvancedDomSnapshot`
with its inner helpers `isElementVisible`, `isInteractiveElement` and
`buildDomTree`).  The live DOM is modelled as an inductive tree of element
and text nodes; the mutable closure state of the builder (the highlight
counter, the id counter, the hash map and the root id) is threaded
explicitly.  JavaScript object keys `element_${n}` / `text_${n}` / `root_0`
are modelled by the tagged type `Handle`; insertion order of the hash map is
kept by using an association list extended at the tail.

The recursion of `buildDomTree` is driven by the remaining depth budget
(`20 - depth` in the source's terms): the source recurses into children only
while `depth < 20`, so the budget is a faithful structural recursion measure
and keeps every definition kernel-computable.
-/

/-- Computed data of a live DOM element used by the builder: tag name,
attribute list (DOM attribute names are unique), layout extents
(`offsetWidth`/`offsetHeight`), the computed style strings consulted by
`isElementVisible`, and whether a JS `onclick` handler property is
attached. -/
structure ElemData where
  tagName : String
  attributes : List (String × String)
  offsetWidth : Nat
  offsetHeight : Nat
  styleVisibility : String
  styleDisplay : String
  styleOpacity : String
  onclickProp : Bool
deriving DecidableEq, Repr

/-- A DOM node: an element with an ordered list of child nodes, or a text
node.  Other node kinds (comments etc.) are skipped unconditionally by
`buildDomTree` and are not modelled. -/
inductive DomNode where
  | element (data : ElemData) (children : List DomNode)
  | text (content : String)

/-- ASCII lowering of a character, as applied by `toLowerCase` to the ASCII
tag names the builder handles. -/
def lowerChar (c : Char) : Char :=
  if 'A' ≤ c ∧ c ≤ 'Z' then Char.ofNat (c.toNat + 32) else c

/-- ASCII `toLowerCase` on a string (tag names are ASCII). -/
def lowerAscii (s : String) : String :=
  String.mk (s.data.map lowerChar)

/-- JavaScript `String.prototype.trim`: drop whitespace from both ends. -/
def jsTrim (s : String) : String :=
  String.mk (((s.data.dropWhile Char.isWhitespace).reverse.dropWhile Char.isWhitespace).reverse)

/-- `element.getAttribute(name)`: the value of the (unique) attribute with
the given name, or `none` when absent. -/
def getAttr : List (String × String) → String → Option String
  | [], _ => none
  | (k, v) :: rest, name => if k = name then some v else getAttr rest name

/-- `isElementVisible` from the snapshot script: positive rendered extents
and none of `visibility: hidden`, `display: none`, `opacity: "0"`. -/
def isElementVisible (d : ElemData) : Bool :=
  d.offsetWidth > 0 && d.offsetHeight > 0 &&
    d.styleVisibility ≠ "hidden" && d.styleDisplay ≠ "none" && d.styleOpacity ≠ "0"

/-- The fixed interactive tag set of `isInteractiveElement`. -/
def interactiveTags : List String :=
  ["a", "button", "input", "select", "textarea", "details", "summary"]

/-- `isInteractiveElement` from the snapshot script: interactive tag, or an
interactive `role`, or a truthy `onclick` (property or attribute — the empty
attribute string is falsy in JS), or a `tabindex` attribute other than
`"-1"`.  It is only ever called on element nodes. -/
def isInteractiveElement (d : ElemData) : Bool :=
  let tagName := lowerAscii d.tagName
  if interactiveTags.contains tagName then true
  else
    let role := getAttr d.attributes "role"
    if role = some "button" ∨ role = some "link" ∨ role = some "checkbox" ∨
        role = some "menuitem" then true
    else if d.onclickProp || ((getAttr d.attributes "onclick").getD "" ≠ "") then true
    else
      match getAttr d.attributes "tabindex" with
      | some t => t ≠ "-1"
      | none => false

/-- Keys of the builder's hash map.  The source uses the strings
`element_${n}`, `text_${n}` and the degenerate `root_0`; a shared counter
makes the numeric parts unique, which the tagged representation mirrors. -/
inductive Handle where
  | element (n : Nat)
  | text (n : Nat)
  | root (n : Nat)
deriving DecidableEq, Repr

/-- Numeric part of a handle (the value of the shared id counter at the
moment the handle was minted). -/
def Handle.num : Handle → Nat
  | .element n => n
  | .text n => n
  | .root n => n

/-- Record stored for one element node.  `isInteractive` and
`highlightIndex` are `Option`s because the source only assigns those object
fields for visible (resp. visible interactive) elements. -/
structure ElementRecord where
  tagName : String
  attributes : List (String × String)
  children : List Handle
  isVisible : Bool
  isInteractive : Option Bool
  highlightIndex : Option Nat
deriving DecidableEq, Repr

/-- A value of the builder's hash map: an element record, a text record
(trimmed text plus the parent element's lowercase tag), or the degenerate
error record produced when `document.body` is unavailable. -/
inductive NodeRecord where
  | elemRec (r : ElementRecord)
  | textRec (text : String) (parentElement : Option String)
  | errorRec (msg : String)
deriving DecidableEq, Repr

/-- The builder's mutable closure state: `highlightIndex` counter,
`ID.current` counter, `DOM_HASH_MAP` as an insertion-ordered association
list, and the `rootId` cell assigned when a `body` element is recorded. -/
structure BuildState where
  highlightIndex : Nat
  idCurrent : Nat
  map : List (Handle × NodeRecord)
  rootId : Option Handle
deriving Repr

/-- One iteration of the `for (const child of node.childNodes)` loop of
`buildDomTree`: run the recursive call `f` on the child and push the
returned handle (when one was produced) onto the accumulated children
list. -/
def childStepF (f : DomNode → BuildState → Option Handle × BuildState)
    (acc : List Handle × BuildState) (child : DomNode) : List Handle × BuildState :=
  match f child acc.2 with
  | (some i, st2) => (acc.1 ++ [i], st2)
  | (none, st2) => (acc.1, st2)

/-- `buildDomTree` from the snapshot script.  `budget` is the remaining
recursion allowance `20 - depth`: the source processes children only while
`depth < 20`, i.e. while the budget is positive.  `parentTag` is the
lowercase tag of the enclosing element (used for text records).  Returns the
handle stored for the node (`none` when the node is filtered out) and the
updated state.  The highlight side effect (`console.log`) and the metric
parameters change no state and are omitted. -/
def buildDomTree (budget : Nat) (node : DomNode) (parentTag : Option String)
    (st : BuildState) : Option Handle × BuildState :=
  match node with
  | DomNode.text content =>
      if jsTrim content = "" then (none, st)
      else
        let id := Handle.text st.idCurrent
        (some id,
          { st with
              idCurrent := st.idCurrent + 1,
              map := st.map ++ [(id, NodeRecord.textRec (jsTrim content) parentTag)] })
  | DomNode.element d children =>
      if getAttr d.attributes "id" = some "playwright-highlight-container" then (none, st)
      else
        let tagName := lowerAscii d.tagName
        if tagName = "script" ∨ tagName = "style" ∨ tagName = "noscript" then (none, st)
        else
          let isVis := isElementVisible d
          let inter := isVis && isInteractiveElement d
          let interField : Option Bool := if isVis then some (isInteractiveElement d) else none
          let hIdx : Option Nat := if inter then some st.highlightIndex else none
          let st0 := if inter then { st with highlightIndex := st.highlightIndex + 1 } else st
          let cres :=
            match budget with
            | 0 => (([] : List Handle), st0)
            | b + 1 =>
                children.foldl
                  (childStepF (fun child st2 => buildDomTree b child (some tagName) st2))
                  (([] : List Handle), st0)
          let id := Handle.element cres.2.idCurrent
          let r : ElementRecord :=
            { tagName := tagName, attributes := d.attributes, children := cres.1,
              isVisible := isVis, isInteractive := interField, highlightIndex := hIdx }
          (some id,
            { highlightIndex := cres.2.highlightIndex,
              idCurrent := cres.2.idCurrent + 1,
              map := cres.2.map ++ [(id, NodeRecord.elemRec r)],
              rootId := if tagName = "body" then some id else cres.2.rootId })

/-- One step of the child fold of `buildDomTree` at budget `b`. -/
def childStep (b : Nat) (tagName : String) :
    (List Handle × BuildState) → DomNode → List Handle × BuildState :=
  childStepF (fun child st2 => buildDomTree b child (some tagName) st2)

/-- The child loop of `buildDomTree` (the `for (const child of
node.childNodes)` loop), as a fold over the child list. -/
def buildChildren (b : Nat) (tagName : String) (nodes : List DomNode)
    (acc : List Handle × BuildState) : List Handle × BuildState :=
  nodes.foldl (childStep b tagName) acc

/-- Metric counters returned under `debugMode`.  In the source they are
initialized to zero and — notably — never incremented afterwards. -/
structure NodeMetrics where
  totalNodes : Nat
  processedNodes : Nat
  skippedNodes : Nat
deriving DecidableEq, Repr

/-- The snapshot returned by `buildAdvancedDomSnapshot`: the root id, the
handle map, and (in `debugMode` only) the metric counters. -/
structure Snapshot where
  rootId : Option Handle
  map : List (Handle × NodeRecord)
  perfMetrics : Option NodeMetrics
deriving DecidableEq, Repr

/-- Initial builder state: both counters zero, empty map, no root. -/
def initState : BuildState :=
  { highlightIndex := 0, idCurrent := 0, map := [], rootId := none }

/-- `buildAdvancedDomSnapshot`.  `body?` is `document.body` (or `none` when
it is unavailable, producing the degenerate error snapshot).
`doHighlightElements` and `focusHighlightIndex` only gate a `console.log`,
and `viewportExpansion` is unused by the source, so none of them affect the
returned data; `debugMode` decides whether the (never-updated) metric record
is attached.  The top-level `rootId` is the return value of the root
`buildDomTree` call, which overwrites the body-detection assignment. -/
def buildAdvancedDomSnapshot (doHighlightElements : Bool) (focusHighlightIndex : Int)
    (viewportExpansion : Int) (debugMode : Bool) (body? : Option DomNode) : Snapshot :=
  let perfMetrics : Option NodeMetrics :=
    if debugMode then some { totalNodes := 0, processedNodes := 0, skippedNodes := 0 } else none
  match body? with
  | some body =>
      let res := buildDomTree 20 body none initState
      { rootId := res.1, map := res.2.map, perfMetrics := perfMetrics }
  | none =>
      { rootId := some (Handle.root 0),
        map := [(Handle.root 0, NodeRecord.errorRec "No document.body available")],
        perfMetrics := perfMetrics }

/-- Lookup in the handle map (JS object indexing; keys are unique because
the shared counter is strictly increasing, and lookup finds the first
occurrence either way). -/
def lookupRec : List (Handle × NodeRecord) → Handle → Option NodeRecord
  | [], _ => none
  | (k, v) :: rest, h => if k = h then some v else lookupRec rest h

/-- Membership of a handle among the keys of the map. -/
def inKeys (m : List (Handle × NodeRecord)) (h : Handle) : Prop :=
  ∃ p ∈ m, p.1 = h

/-- Highlight indices of the snapshot subtree under a handle, listed in
pre-order (a node's own index, then its children's, left to right).  `fuel`
bounds the chase through the map; fuel 21 suffices for a snapshot built with
the source's depth ceiling of 20. -/
def collectIdx (m : List (Handle × NodeRecord)) : Nat → Handle → List Nat
  | 0, _ => []
  | fuel + 1, h =>
      match lookupRec m h with
      | some (NodeRecord.elemRec r) =>
          r.highlightIndex.toList ++ (r.children.map (fun c => collectIdx m fuel c)).flatten
      | _ => []

/-- `reach m root k h`: handle `h` is reachable from `root` by following
exactly `k` child links through element records of the map `m`. -/
inductive reach (m : List (Handle × NodeRecord)) (root : Handle) : Nat → Handle → Prop
  | refl : reach m root 0 root
  | step {k h r c} : reach m root k h → lookupRec m h = some (NodeRecord.elemRec r) →
      c ∈ r.children → reach m root (k + 1) c

/-- `boundedTree m fuel h`: following child links from `h` through `m`,
every element record reached with fuel exhausted has an empty children
array; used to state the depth ceiling of the builder. -/
def boundedTree (m : List (Handle × NodeRecord)) : Nat → Handle → Prop
  | 0, h => ∀ r, lookupRec m h = some (NodeRecord.elemRec r) → r.children = []
  | fuel + 1, h =>
      ∀ r, lookupRec m h = some (NodeRecord.elemRec r) →
        ∀ c ∈ r.children, inKeys m c ∧ boundedTree m fuel c

/-!
Part 2 models `ensureUrlProtocol` (the fixed version of the main server
file).  The two JavaScript global regex replaces are modelled by scanners
over the character list: at each position the pattern is tried; on a match
its replacement is emitted and scanning resumes after the matched text,
otherwise one character is copied.  Each step consumes at least one
character, so the input length is a sufficient fuel.
-/

/-- Match of the regex `https?:://` at the head of the list (greedy optional
`s`), returning the remainder after the match. -/
def doubleColonHead : List Char → Option (List Char)
  | 'h' :: 't' :: 't' :: 'p' :: 's' :: ':' :: ':' :: '/' :: '/' :: rest => some rest
  | 'h' :: 't' :: 't' :: 'p' :: ':' :: ':' :: '/' :: '/' :: rest => some rest
  | _ => none

/-- Fuelled scanner for `url.replace(/https?:\x3a\x3a\/\//g, "https:\/\/")`
(note: the replacement is always `https://`, also for `http:://`). -/
def scanDoubleColonAux : Nat → List Char → List Char
  | 0, l => l
  | fuel + 1, l =>
      match doubleColonHead l with
      | some rest => "https://".data ++ scanDoubleColonAux fuel rest
      | none =>
          match l with
          | [] => []
          | c :: cs => c :: scanDoubleColonAux fuel cs

/-- First replace of `ensureUrlProtocol`. -/
def scanDoubleColon (l : List Char) : List Char :=
  scanDoubleColonAux l.length l

/-- Match of the regex `https?:\/\/(https?:\/\/)` at the head of the list,
returning the text of the capture group (the second scheme) and the
remainder after the whole match. -/
def dupSchemeHead : List Char → Option (List Char × List Char)
  | 'h' :: 't' :: 't' :: 'p' :: 's' :: ':' :: '/' :: '/' ::
    'h' :: 't' :: 't' :: 'p' :: 's' :: ':' :: '/' :: '/' :: rest => some ("https://".data, rest)
  | 'h' :: 't' :: 't' :: 'p' :: 's' :: ':' :: '/' :: '/' ::
    'h' :: 't' :: 't' :: 'p' :: ':' :: '/' :: '/' :: rest => some ("http://".data, rest)
  | 'h' :: 't' :: 't' :: 'p' :: ':' :: '/' :: '/' ::
    'h' :: 't' :: 't' :: 'p' :: 's' :: ':' :: '/' :: '/' :: rest => some ("https://".data, rest)
  | 'h' :: 't' :: 't' :: 'p' :: ':' :: '/' :: '/' ::
    'h' :: 't' :: 't' :: 'p' :: ':' :: '/' :: '/' :: rest => some ("http://".data, rest)
  | _ => none

/-- Fuelled scanner for
`url.replace(/https?:\/\/(https?:\/\/)/g, "$1")`. -/
def scanDupSchemeAux : Nat → List Char → List Char
  | 0, l => l
  | fuel + 1, l =>
      match dupSchemeHead l with
      | some (rep, rest) => rep ++ scanDupSchemeAux fuel rest
      | none =>
          match l with
          | [] => []
          | c :: cs => c :: scanDupSchemeAux fuel cs

/-- Second replace of `ensureUrlProtocol`. -/
def scanDupScheme (l : List Char) : List Char :=
  scanDupSchemeAux l.length l

/-- Boolean list-placement test: does `pre` start the list? -/
def hasPrefixL : List Char → List Char → Bool
  | [], _ => true
  | _ :: _, [] => false
  | a :: as, b :: bs => a == b && hasPrefixL as bs

/-- Does the string (as characters) contain a match of `https?:://`
anywhere? -/
def containsDoubleColon : List Char → Bool
  | [] => false
  | c :: cs => (doubleColonHead (c :: cs)).isSome || containsDoubleColon cs

/-- Does the string (as characters) contain a duplicated scheme
`https?:\/\/https?:\/\/` anywhere? -/
def containsDupScheme : List Char → Bool
  | [] => false
  | c :: cs => (dupSchemeHead (c :: cs)).isSome || containsDupScheme cs

/-- `ensureUrlProtocol` from the main server file: collapse `https?:://`,
collapse `https?://https?://` to the second scheme, then prepend `https://`
when no scheme is present. -/
def ensureUrlProtocol (url : String) : String :=
  let l1 := scanDoubleColon url.data
  let l2 := scanDupScheme l1
  if hasPrefixL "http://".data l2 || hasPrefixL "https://".data l2 then String.mk l2
  else String.mk ("https://".data ++ l2)

/-!
Part 3 models `executeAction` from the main server file.  The Playwright
page is abstracted as an oracle `Page : Nat -> PageResp` giving the outcome
of the n-th page operation that consults the page (clicks, fills, presses,
visibility waits, load-state waits, the verification races, `isVisible`
queries and `page.$` queries); `waitForTimeout` and the diagnostic
screenshot in the catch handler cannot fail and consume no oracle slot.
Each operation is appended to an event trace so that theorems can count
attempts.  A thrown JS error is modelled by the error channel of `Except`,
carrying the message and the state at the throw; the verification
`Promise.race` maps its own failures to `false` via `.catch(() => false)`
and therefore never throws.  Inside `Promise.all` pairs the press is
recorded before the load-state wait.
-/

/-- Oracle response for one page operation: success, a boolean outcome (for
races and queries), or a thrown error with its message. -/
inductive PageResp where
  | ok
  | vis (b : Bool)
  | err (msg : String)
deriving DecidableEq, Repr

/-- The abstract Playwright page: outcome of the n-th oracle-consuming
operation. -/
def Page := Nat → PageResp

/-- Events recorded while executing an action. -/
inductive PageEvent where
  | clickEv (sel : String)
  | fillEv (sel : String) (value : String)
  | pressEv (sel : String) (key : String)
  | waitTimeoutEv (ms : Int)
  | waitSelectorEv (sel : String)
  | loadStateEv
  | verifyEv (result : Bool)
  | isVisibleEv (sel : String)
  | queryEv (sel : String)
  | screenshotEv
deriving DecidableEq, Repr

/-- Executor state: next oracle index and the event trace so far. -/
structure PSt where
  idx : Nat
  trace : List PageEvent
deriving DecidableEq, Repr

/-- A fallible page operation (`click`, `fill`, `press`, `waitForSelector`,
`waitForLoadState`): consumes one oracle slot, records the event, and throws
when the oracle says so. -/
def opF (p : Page) (ev : PageEvent) (s : PSt) : Except (String × PSt) PSt :=
  let s2 : PSt := { idx := s.idx + 1, trace := s.trace ++ [ev] }
  match p s.idx with
  | PageResp.err m => Except.error (m, s2)
  | _ => Except.ok s2

/-- `page.waitForTimeout` or the catch-handler screenshot: records the event
only. -/
def opDelay (ev : PageEvent) (s : PSt) : PSt :=
  { s with trace := s.trace ++ [ev] }

/-- A boolean page query (`page.isVisible`, `page.$`): consumes one oracle
slot; an error response counts as a negative answer. -/
def opBool (p : Page) (ev : PageEvent) (s : PSt) : Bool × PSt :=
  let s2 : PSt := { idx := s.idx + 1, trace := s.trace ++ [ev] }
  match p s.idx with
  | PageResp.vis b => (b, s2)
  | PageResp.ok => (true, s2)
  | PageResp.err _ => (false, s2)

/-- The verification race of the search protocol (`Promise.race` of the
results-appeared and no-results waits, each with `.catch(() => false)`):
consumes one oracle slot and records the boolean outcome, never throws. -/
def opVerify (p : Page) (s : PSt) : Bool × PSt :=
  let b :=
    match p s.idx with
    | PageResp.vis b => b
    | PageResp.ok => true
    | PageResp.err _ => false
  (b, { idx := s.idx + 1, trace := s.trace ++ [PageEvent.verifyEv b] })

/-- The search-input locator used by the executor's special handling. -/
def searchInputSelector : String := "input[placeholder=\"Search\"]"

/-- The collapsible search-section header locator. -/
def searchHeaderSelector : String := ".search-tab-filters-list-item-header"

/-- One entry of a malformed action's `inputFields` array. -/
structure InputField where
  placeholder : String
  value : Option String
deriving DecidableEq, Repr

/-- The (duck-typed) action object handed to `executeAction`; absent JS
fields are `none`. -/
structure ActionInput where
  action : Option String := none
  selector : Option String := none
  value : Option String := none
  key : Option String := none
  duration : Option String := none
  searchText : Option String := none
  search_query : Option String := none
  inputFields : Option (List InputField) := none
  type : Option String := none
deriving DecidableEq, Repr

/-- The `{success, error?}` object returned by `executeAction`. -/
structure ExecResult where
  success : Bool
  error : Option String
deriving DecidableEq, Repr

/-- JS truthiness of an optional string (absent and empty are falsy). -/
def optTruthy : Option String → Bool
  | some s => s ≠ ""
  | none => false

/-- JS `x || y` on optional strings: keep `x` when it is truthy. -/
def jsOrS : Option String → Option String → Option String
  | some s, y => if s = "" then y else some s
  | none, y => y

/-- Is the action kind one of the four recognized kinds? -/
def recognizedKind : Option String → Bool
  | some s => s = "click" || s = "fill" || s = "press" || s = "wait"
  | none => false

/-- Truthiness of the search-related fields consulted by the invalid-action
normalization (`action.searchText || action.inputFields ||
action.search_query`; an array — even empty — is truthy in JS). -/
def hasSearchFields (a : ActionInput) : Bool :=
  optTruthy a.searchText || a.inputFields.isSome || optTruthy a.search_query

/-- `action.inputFields?.find(f => f.placeholder === "Search")?.value`. -/
def searchFieldValue (a : ActionInput) : Option String :=
  (a.inputFields.bind (fun fs => fs.find? (fun f => f.placeholder == "Search"))).bind
    (fun f => f.value)

/-- The value forced onto a malformed search-related action:
`action.searchText || inputFields-find || action.search_query ||
"pizza"`. -/
def forcedSearchValue (a : ActionInput) : String :=
  (jsOrS a.searchText (jsOrS (searchFieldValue a) (jsOrS a.search_query (some "pizza")))).getD
    "pizza"

/-- The invalid-action normalization at the top of `executeAction`: when the
selector is falsy or the kind unrecognized, force a click on the search
header — or, when search-related fields are present, a fill of the search
input with the forced value.  Returns the effective selector, kind, and
`action.value` (possibly mutated by the normalization). -/
def forceValidAction (a : ActionInput) : String × String × Option String :=
  if !optTruthy a.selector || !recognizedKind a.action then
    if hasSearchFields a then
      (searchInputSelector, "fill", some (forcedSearchValue a))
    else
      (searchHeaderSelector, "click", a.value)
  else
    (a.selector.getD "", a.action.getD "", a.value)

/-- Digit run parsing for `parseInt`: fold decimal digits, `none` when no
digit is present. -/
def digitsVal : List Char → Option Nat → Option Nat
  | [], acc => acc
  | c :: cs, acc =>
      if c.isDigit then digitsVal cs (some ((acc.getD 0) * 10 + (c.toNat - '0'.toNat)))
      else acc

/-- JavaScript `parseInt` (base 10): skip leading whitespace, optional sign,
leading digit run; `none` models `NaN`. -/
def jsParseInt (s : String) : Option Int :=
  let l := s.data.dropWhile Char.isWhitespace
  match l with
  | '-' :: rest => (digitsVal rest none).map (fun n => -(n : Int))
  | '+' :: rest => (digitsVal rest none).map (fun n => (n : Int))
  | _ => (digitsVal l none).map (fun n => (n : Int))

/-- `parseInt(action.duration) || 2000`: the default also applies when the
parse yields `0` (falsy) or `NaN`. -/
def jsDuration (d : Option String) : Int :=
  match d with
  | none => 2000
  | some s =>
      match jsParseInt s with
      | none => 2000
      | some v => if v = 0 then 2000 else v

/-- Prefix test used by the substring search. -/
def isPrefixOfL : List Char → List Char → Bool
  | [], _ => true
  | _ :: _, [] => false
  | a :: as, b :: bs => a == b && isPrefixOfL as bs

/-- JS `String.prototype.includes`. -/
def strIncludes (s sub : String) : Bool :=
  let rec go : List Char → Bool
    | [] => sub.data.isEmpty
    | c :: cs => isPrefixOfL sub.data (c :: cs) || go cs
  go s.data

/-- The fixed ordered list of checkbox locator patterns. -/
def checkboxSelectors : List String :=
  [".search-businesses-header-checkbox", ".checkbox-square", ".list-item-checkbox"]

/-- The checkbox handling loop: try each pattern with `page.$`; click the
first that resolves (its own try/catch converts a click error into a normal
failure result), else fail with `No matching checkbox found`. -/
def checkboxLoop (p : Page) : List String → PSt → ExecResult × PSt
  | [], s => ({ success := false, error := some "No matching checkbox found" }, s)
  | sel :: rest, s =>
      let q := opBool p (PageEvent.queryEv sel) s
      if q.1 then
        match opF p (PageEvent.clickEv sel) q.2 with
        | Except.ok s2 =>
            ({ success := true, error := none }, opDelay (PageEvent.waitTimeoutEv 500) s2)
        | Except.error (m, s2) => ({ success := false, error := some m }, s2)
      else checkboxLoop p rest q.2

/-- The press-Enter search protocol (expand header, wait for the input,
focus, press with a load-state wait, verify; on failed verification retry
the click-and-press once and verify again, throwing when that also
fails). -/
def searchPressSeq (p : Page) (s : PSt) : Except (String × PSt) (ExecResult × PSt) := do
  let s ← opF p (PageEvent.clickEv searchHeaderSelector) s
  let s := opDelay (PageEvent.waitTimeoutEv 1000) s
  let s ← opF p (PageEvent.waitSelectorEv searchInputSelector) s
  let s ← opF p (PageEvent.clickEv searchInputSelector) s
  let s := opDelay (PageEvent.waitTimeoutEv 500) s
  let s ← opF p (PageEvent.pressEv searchInputSelector "Enter") s
  let s ← opF p PageEvent.loadStateEv s
  let v := opVerify p s
  if v.1 then return ({ success := true, error := none }, v.2)
  else
    let s ← opF p (PageEvent.clickEv searchInputSelector) v.2
    let s ← opF p (PageEvent.pressEv searchInputSelector "Enter") s
    let s ← opF p PageEvent.loadStateEv s
    let v2 := opVerify p s
    if v2.1 then return ({ success := true, error := none }, v2.2)
    else Except.error ("Search failed to show results after retry", v2.2)

/-- The search fill protocol (expand header, wait for the input, focus,
fill, check the input is still visible and re-expand when not). -/
def searchFillSeq (p : Page) (effValue : Option String) (s : PSt) :
    Except (String × PSt) (ExecResult × PSt) := do
  let s ← opF p (PageEvent.clickEv searchHeaderSelector) s
  let s := opDelay (PageEvent.waitTimeoutEv 1000) s
  let s ← opF p (PageEvent.waitSelectorEv searchInputSelector) s
  let s ← opF p (PageEvent.clickEv searchInputSelector) s
  let s ← opF p
      (PageEvent.fillEv searchInputSelector ((jsOrS effValue (some "pizza")).getD "pizza")) s
  let s := opDelay (PageEvent.waitTimeoutEv 500) s
  let v := opBool p (PageEvent.isVisibleEv searchInputSelector) s
  if v.1 then return ({ success := true, error := none }, v.2)
  else
    let s ← opF p (PageEvent.clickEv searchHeaderSelector) v.2
    let s := opDelay (PageEvent.waitTimeoutEv 500) s
    let s ← opF p (PageEvent.clickEv searchInputSelector) s
    return ({ success := true, error := none }, s)

/-- The general handling: wait for the selector, then dispatch on the
(normalized) action kind. -/
def generalSeq (p : Page) (selector validAction : String) (effValue : Option String)
    (a : ActionInput) (s : PSt) : Except (String × PSt) (ExecResult × PSt) := do
  let s ← opF p (PageEvent.waitSelectorEv selector) s
  if validAction = "click" then
    let s ← opF p (PageEvent.clickEv selector) s
    return ({ success := true, error := none }, opDelay (PageEvent.waitTimeoutEv 1000) s)
  else if validAction = "fill" then
    let s ← opF p (PageEvent.fillEv selector ((jsOrS effValue (some "")).getD "")) s
    return ({ success := true, error := none }, opDelay (PageEvent.waitTimeoutEv 500) s)
  else if validAction = "press" then
    let s ← opF p (PageEvent.pressEv selector ((jsOrS a.key (some "Enter")).getD "Enter")) s
    let s ← opF p PageEvent.loadStateEv s
    return ({ success := true, error := none }, s)
  else if validAction = "wait" then
    return ({ success := true, error := none },
      opDelay (PageEvent.waitTimeoutEv (jsDuration a.duration)) s)
  else
    return ({ success := false, error := some ("Unknown action: " ++ validAction) }, s)

/-- The body of the big try of `executeAction`: the two search special
cases, the checkbox branch (whose inner try/catch never lets an error
escape), then the general handling. -/
def tryBody (p : Page) (a : ActionInput) (selector validAction : String)
    (effValue : Option String) (s : PSt) : Except (String × PSt) (ExecResult × PSt) :=
  if selector = searchInputSelector ∧ validAction = "press" ∧ a.key = some "Enter" then
    searchPressSeq p s
  else if selector = searchInputSelector ∧ validAction = "fill" then
    searchFillSeq p effValue s
  else if strIncludes (a.selector.getD "") "checkbox" || a.type == some "checkbox" then
    Except.ok (checkboxLoop p checkboxSelectors s)
  else
    generalSeq p selector validAction effValue a s

/-- The catch handler's special retry for a search-input action failing with
a hidden-element error: re-expand, re-focus, redo the fill or press (with a
fresh verification for press), succeeding for any other kind. -/
def hiddenRetrySeq (p : Page) (validAction : String) (effValue : Option String) (s : PSt) :
    Except (String × PSt) (ExecResult × PSt) := do
  let s ← opF p (PageEvent.clickEv searchHeaderSelector) s
  let s := opDelay (PageEvent.waitTimeoutEv 1000) s
  let s ← opF p (PageEvent.clickEv searchInputSelector) s
  let s := opDelay (PageEvent.waitTimeoutEv 500) s
  if validAction = "fill" then
    let s ← opF p
        (PageEvent.fillEv searchInputSelector ((jsOrS effValue (some "pizza")).getD "pizza")) s
    return ({ success := true, error := none }, s)
  else if validAction = "press" then
    let s ← opF p (PageEvent.pressEv searchInputSelector "Enter") s
    let s ← opF p PageEvent.loadStateEv s
    let v := opVerify p s
    if v.1 then return ({ success := true, error := none }, v.2)
    else Except.error ("Search failed to show results after retry", v.2)
  else
    return ({ success := true, error := none }, s)

/-- `executeAction`: normalize the action, run the try body, and on a thrown
error take the diagnostic screenshot and either run the hidden-element
search retry (whose own errors become failure results) or return the failure
result. -/
def executeAction (p : Page) (a : ActionInput) : ExecResult × List PageEvent :=
  let f := forceValidAction a
  let selector := f.1
  let validAction := f.2.1
  let effValue := f.2.2
  match tryBody p a selector validAction effValue { idx := 0, trace := [] } with
  | Except.ok (r, s) => (r, s.trace)
  | Except.error (m, s) =>
      let s1 := opDelay PageEvent.screenshotEv s
      if selector = searchInputSelector ∧ strIncludes m "hidden" = true then
        match hiddenRetrySeq p validAction effValue s1 with
        | Except.ok (r, s2) => (r, s2.trace)
        | Except.error (m2, s2) => ({ success := false, error := some m2 }, s2.trace)
      else
        ({ success := false, error := some m }, s1.trace)

/-- Number of occurrences of an event in a trace. -/
def countEv (tr : List PageEvent) (e : PageEvent) : Nat :=
  (tr.filter (fun x => x == e)).length

/-!
Part 4 models the response construction of the `/run-campaign` endpoint of
the main server file, and fixes the concrete demo inputs used by the
witness and counterexample theorems.
-/

/-- One audit record pushed onto `automationSteps` by the campaign loop. -/
structure AutomationStep where
  step : Nat
  action : ActionInput
  result : ExecResult
deriving DecidableEq, Repr

/-- How a campaign run ends: the try block completes (with the accumulated
step log), or an error is thrown with some step log accumulated at that
point. -/
inductive RunOutcome where
  | completed (steps : List AutomationStep)
  | errored (errMsg : String) (steps : List AutomationStep)
deriving DecidableEq, Repr

/-- The JSON payload (plus HTTP status) sent by the endpoint. -/
structure CampaignResponse where
  status : Nat
  success : Bool
  message : Option String
  error : Option String
  details : Option (List AutomationStep)
deriving DecidableEq, Repr

/-- Response construction of `/run-campaign`: on completion a 200 with
message and the step log as `details`; on a caught error a 500 with
`success: false` and the fixed string `Error starting campaign` — and no
other fields. -/
def runCampaignResponse : RunOutcome → CampaignResponse
  | RunOutcome.completed steps =>
      { status := 200, success := true, message := some "Campaign completed successfully",
        error := none, details := some steps }
  | RunOutcome.errored _ _ =>
      { status := 500, success := false, message := none,
        error := some "Error starting campaign", details := none }

/-- A visible plain element (positive extents, benign computed style). -/
def visDiv : ElemData :=
  { tagName := "div", attributes := [], offsetWidth := 100, offsetHeight := 50,
    styleVisibility := "visible", styleDisplay := "block", styleOpacity := "1",
    onclickProp := false }

/-- Demo document: a visible body containing a visible button, a
`display: none` button, and a text node. -/
def demoBody : DomNode :=
  DomNode.element { visDiv with tagName := "body" }
    [DomNode.element { visDiv with tagName := "button" } [],
     DomNode.element { visDiv with tagName := "button", styleDisplay := "none" } [],
     DomNode.text "  hello  "]

/-- Demo document for the metrics claim: a bare visible body. -/
def demoBodyBare : DomNode :=
  DomNode.element { visDiv with tagName := "body" } []

/-- The well-formed press-Enter search action. -/
def pressEnterAction : ActionInput :=
  { action := some "press", selector := some searchInputSelector, key := some "Enter" }

/-- Page oracle on which every operation succeeds but both verification
races (oracle slots 5 and 9 of the press-Enter protocol) report that
neither the results nor the no-results indicator appeared. -/
def verifyFailPage : Page :=
  fun n => if n = 5 then PageResp.vis false else if n = 9 then PageResp.vis false else PageResp.ok

/-- Page oracle on which every operation succeeds. -/
def allOkPage : Page := fun _ => PageResp.ok

/-- Page oracle whose very first operation throws a timeout error. -/
def firstOpFailsPage : Page :=
  fun n => if n = 0 then PageResp.err "Timeout 20000ms exceeded waiting for selector" else PageResp.ok

/-- A `wait` action carrying a selector, as the decision function may
produce. -/
def demoWaitAction : ActionInput :=
  { action := some "wait", selector := some "#content", duration := some "1500" }

/-- A malformed action: unrecognized kind, ordinary selector, no
search-related fields. -/
def demoInvalidAction : ActionInput :=
  { action := some "toggle", selector := some "#menu" }

/-- A `wait` action whose selector is checkbox-like. -/
def demoWaitCheckboxAction : ActionInput :=
  { action := some "wait", selector := some ".my-checkbox", duration := some "1500" }

/-- A malformed action carrying a `searchText` field. -/
def demoInvalidSearchAction : ActionInput :=
  { action := some "createList", searchText := some "pizza" }

/-- A failed automation step, as would be accumulated before a thrown
error. -/
def demoFailedStep : AutomationStep :=
  { step := 0, action := pressEnterAction,
    result := { success := false, error := some "Timeout" } }

/-- Shape invariant of a stored record. -/
def recShape : NodeRecord → Prop
  | NodeRecord.elemRec r =>
      (r.isVisible = true → ∃ b, r.isInteractive = some b) ∧
      (r.isVisible = false → r.isInteractive = none ∧ r.highlightIndex = none) ∧
      (r.highlightIndex.isSome = true ↔ (r.isVisible = true ∧ r.isInteractive = some true))
  | _ => True

/-- Children-closure of a map. -/
def mapClosed (m : List (Handle × NodeRecord)) : Prop :=
  ∀ p ∈ m, ∀ r, p.2 = NodeRecord.elemRec r → ∀ c ∈ r.children, inKeys m c

/-- Invariant of the builder state. -/
structure StateOK (st : BuildState) : Prop where
  fresh : ∀ p ∈ st.map, Handle.num p.1 < st.idCurrent
  closedMap : mapClosed st.map
  shape : ∀ p ∈ st.map, recShape p.2
  idxlt : ∀ p ∈ st.map, ∀ r, p.2 = NodeRecord.elemRec r →
      ∀ i, r.highlightIndex = some i → i < st.highlightIndex

/-- Postcondition of one `buildDomTree` call. -/
def BuildPost (budget : Nat) (st : BuildState) (res : Option Handle × BuildState) : Prop :=
  StateOK res.2 ∧
  st.idCurrent ≤ res.2.idCurrent ∧
  st.highlightIndex ≤ res.2.highlightIndex ∧
  (∃ tail, res.2.map = st.map ++ tail) ∧
  (res.1 = none → res.2 = st) ∧
  ∀ id, res.1 = some id →
    st.idCurrent ≤ Handle.num id ∧ Handle.num id < res.2.idCurrent ∧
    inKeys res.2.map id ∧
    collectIdx res.2.map (budget + 1) id =
      List.range' st.highlightIndex (res.2.highlightIndex - st.highlightIndex) ∧
    boundedTree res.2.map budget id

/-- Postcondition of the child loop. -/
def ChildrenPost (b : Nat) (st : BuildState) (res : List Handle × BuildState) : Prop :=
  StateOK res.2 ∧
  st.idCurrent ≤ res.2.idCurrent ∧
  st.highlightIndex ≤ res.2.highlightIndex ∧
  (∃ tail, res.2.map = st.map ++ tail) ∧
  (∀ i ∈ res.1, inKeys res.2.map i ∧ boundedTree res.2.map b i) ∧
  (res.1.map (fun c => collectIdx res.2.map (b + 1) c)).flatten =
    List.range' st.highlightIndex (res.2.highlightIndex - st.highlightIndex)

/-- The record stored for the visible demo button (handle `element 0`). -/
def demoButtonRec : ElementRecord :=
  { tagName := "button", attributes := [], children := [], isVisible := true,
    isInteractive := some true, highlightIndex := some 0 }

/-- The record stored for the `display: none` demo button (handle
`element 1`). -/
def demoHiddenRec : ElementRecord :=
  { tagName := "button", attributes := [], children := [], isVisible := false,
    isInteractive := none, highlightIndex := none }

/-- The record stored for the demo body element (handle `element 3`). -/
def demoBodyRec : ElementRecord :=
  { tagName := "body", attributes := [],
    children := [Handle.element 0, Handle.element 1, Handle.text 2],
    isVisible := true, isInteractive := some false, highlightIndex := none }

/-!
Theorems.  Each claim of the specification audit is settled by one theorem
below (with a counterexample theorem where the claim as stated fails, and a
closed witness where the theorem carries hypotheses).
-/

theorem scanDoubleColonAux_id (fuel : Nat) :
    ∀ l, containsDoubleColon l = false → scanDoubleColonAux fuel l = l := by
  induction fuel with
  | zero => intro l _; rfl
  | succ f ih =>
      intro l hl
      cases l with
      | nil => rfl
      | cons c cs =>
          simp only [containsDoubleColon, Bool.or_eq_false_iff] at hl
          have h1 : doubleColonHead (c :: cs) = none := by
            cases hh : doubleColonHead (c :: cs) with
            | none => rfl
            | some r => rw [hh] at hl; exact absurd hl.1 (by simp)
          simp [scanDoubleColonAux, h1, ih cs hl.2]

theorem scanDupSchemeAux_id (fuel : Nat) :
    ∀ l, containsDupScheme l = false → scanDupSchemeAux fuel l = l := by
  induction fuel with
  | zero => intro l _; rfl
  | succ f ih =>
      intro l hl
      cases l with
      | nil => rfl
      | cons c cs =>
          simp only [containsDupScheme, Bool.or_eq_false_iff] at hl
          have h1 : dupSchemeHead (c :: cs) = none := by
            cases hh : dupSchemeHead (c :: cs) with
            | none => rfl
            | some r => rw [hh] at hl; exact absurd hl.1 (by simp)
          simp [scanDupSchemeAux, h1, ih cs hl.2]

/-- C5 (confirmed): `ensureUrlProtocol` collapses the duplicated scheme of
`https://https://app.example.com` to `https://app.example.com`, prepends a
scheme to the bare `app.example.com`, and returns unchanged any URL that
already starts with `http://` or `https://` and contains neither a
malformed `https?:://` nor a duplicated `https?://https?://` prefix. -/
theorem ensureUrlProtocol_spec :
    ensureUrlProtocol "https://https://app.example.com" = "https://app.example.com" ∧
    ensureUrlProtocol "app.example.com" = "https://app.example.com" ∧
    ∀ url : String,
      (hasPrefixL "http://".data url.data || hasPrefixL "https://".data url.data) = true →
      containsDoubleColon url.data = false →
      containsDupScheme url.data = false →
      ensureUrlProtocol url = url := by
  refine ⟨by decide, by decide, ?_⟩
  intro url hpre hdc hdup
  have e1 : scanDoubleColon url.data = url.data := scanDoubleColonAux_id _ _ hdc
  have e2 : scanDupScheme url.data = url.data := scanDupSchemeAux_id _ _ hdup
  simp only [ensureUrlProtocol, e1, e2, hpre, if_true]

/-- Witness for C5: a clean https URL is returned unchanged. -/
theorem ensureUrlProtocol_spec_witness :
    ensureUrlProtocol "https://ok.example.com" = "https://ok.example.com" :=
  ensureUrlProtocol_spec.2.2 "https://ok.example.com" (by decide) (by decide) (by decide)

/-- C8 (code_bug): with `debugMode` set, the returned
`perfMetrics.nodeMetrics` counters are all zero even though the traversal
visited and kept one node — the source initializes the counters but never
increments them. -/
theorem perfMetrics_stay_zero :
    (buildAdvancedDomSnapshot false (-1) 0 true (some demoBodyBare)).perfMetrics =
      some { totalNodes := 0, processedNodes := 0, skippedNodes := 0 } ∧
    (buildAdvancedDomSnapshot false (-1) 0 true (some demoBodyBare)).map.length = 1 := by
  decide

/-- C9 counterexample: a failed campaign run with a non-empty accumulated
step log produces a response whose `details` field is absent — the step log
is not included in the failure payload, contrary to the claim. -/
theorem failure_response_drops_steps :
    (runCampaignResponse (RunOutcome.errored "boom" [demoFailedStep])).details = none ∧
    (runCampaignResponse (RunOutcome.errored "boom" [demoFailedStep])).error =
      some "Error starting campaign" ∧
    [demoFailedStep] ≠ ([] : List AutomationStep) := by decide

/-- C9 (corrected): a failing campaign run responds with HTTP 500,
`success: false` and the fixed message `Error starting campaign` only — no
step log; the ordered step log is returned only on success. -/
theorem failure_response_shape (m : String) (steps : List AutomationStep) :
    runCampaignResponse (RunOutcome.errored m steps) =
      { status := 500, success := false, message := none,
        error := some "Error starting campaign", details := none } ∧
    (runCampaignResponse (RunOutcome.completed steps)).details = some steps :=
  ⟨rfl, rfl⟩

/-- C3 counterexample: on a page where every operation succeeds but neither
result indicator ever appears, the press-Enter search performs exactly two
presses and fails, but clicks the expand header only once — the retry is a
click-and-press only, not the full expand-click-press cycle the claim
describes (which would require a second header click). -/
theorem press_retry_no_reexpand_cex :
    (executeAction verifyFailPage pressEnterAction).1.success = false ∧
    countEv (executeAction verifyFailPage pressEnterAction).2
      (PageEvent.pressEv searchInputSelector "Enter") = 2 ∧
    countEv (executeAction verifyFailPage pressEnterAction).2
      (PageEvent.clickEv searchHeaderSelector) = 1 ∧
    countEv (executeAction verifyFailPage pressEnterAction).2
      (PageEvent.clickEv searchHeaderSelector) ≠ 2 := by decide

/-- C3 (corrected): for any page on which the protocol's operations succeed
(oracle slots other than the two verification races) while both
verification races report that neither indicator appeared, the press-Enter
search action performs exactly two press attempts, expands the header
exactly once (the retry re-clicks the input and presses again without
re-expanding), and returns a failure outcome. -/
theorem press_retry_amended (p : Page)
    (hok : ∀ n, n ≠ 5 → n ≠ 9 → p n = PageResp.ok)
    (h5 : p 5 = PageResp.vis false) (h9 : p 9 = PageResp.vis false) :
    (executeAction p pressEnterAction).1.success = false ∧
    countEv (executeAction p pressEnterAction).2
      (PageEvent.pressEv searchInputSelector "Enter") = 2 ∧
    countEv (executeAction p pressEnterAction).2
      (PageEvent.clickEv searchHeaderSelector) = 1 := by
  have e0 : p 0 = PageResp.ok := hok 0 (by decide) (by decide)
  have e1 : p 1 = PageResp.ok := hok 1 (by decide) (by decide)
  have e2 : p 2 = PageResp.ok := hok 2 (by decide) (by decide)
  have e3 : p 3 = PageResp.ok := hok 3 (by decide) (by decide)
  have e4 : p 4 = PageResp.ok := hok 4 (by decide) (by decide)
  have e6 : p 6 = PageResp.ok := hok 6 (by decide) (by decide)
  have e7 : p 7 = PageResp.ok := hok 7 (by decide) (by decide)
  have e8 : p 8 = PageResp.ok := hok 8 (by decide) (by decide)
  simp +decide [executeAction, forceValidAction, pressEnterAction, tryBody, searchPressSeq,
    opF, opDelay, opVerify, bind, Except.bind, e0, e1, e2, e3, e4, h5, e6, e7, e8, h9,
    optTruthy, recognizedKind, searchInputSelector, searchHeaderSelector,
    hasSearchFields, strIncludes, countEv]

/-- Witness for C3's amended theorem at the concrete oracle. -/
theorem press_retry_amended_witness :
    (executeAction verifyFailPage pressEnterAction).1.success = false ∧
    countEv (executeAction verifyFailPage pressEnterAction).2
      (PageEvent.pressEv searchInputSelector "Enter") = 2 ∧
    countEv (executeAction verifyFailPage pressEnterAction).2
      (PageEvent.clickEv searchHeaderSelector) = 1 :=
  press_retry_amended verifyFailPage
    (by intro n hn5 hn9; simp [verifyFailPage, hn5, hn9])
    (by simp [verifyFailPage]) (by simp [verifyFailPage])

/-- C7 counterexample: a `wait` action carrying a selector first waits for
that selector to become visible; when that wait throws, `executeAction`
returns a failure — contradicting the claim that a wait action always
succeeds regardless of page state. -/
theorem wait_action_can_fail_cex :
    (executeAction firstOpFailsPage demoWaitAction).1.success = false ∧
    (executeAction firstOpFailsPage demoWaitAction).2 =
      [PageEvent.waitSelectorEv "#content", PageEvent.screenshotEv] := by decide

/-- C7 (corrected): a `wait` action with a truthy selector is not a pure
delay.  When the selector is not checkbox-like (it does not contain
`checkbox` and the action's `type` field is not `checkbox`), the executor
first waits for that selector to become visible; only if that wait succeeds
does it perform the delay of `parseInt(duration)` ms — defaulting to 2000
when the duration is missing or unparseable — and succeed, and when the
visibility wait throws (for a selector other than the search input) the
action returns a failure.  When the selector or `type` is checkbox-like, the
wait action is diverted to the checkbox protocol instead — no visibility
wait on the given selector and no requested delay; on a page where the
first pattern resolves it clicks `.search-businesses-header-checkbox` and
pauses the fixed 500 ms.  (A wait action with no selector at all is
normalized to a click by the invalid-action handling.) -/
theorem wait_action_amended (p : Page) (a : ActionInput)
    (h1 : a.action = some "wait") (h2 : optTruthy a.selector = true) :
    (strIncludes (a.selector.getD "") "checkbox" = false → a.type ≠ some "checkbox" →
      ((p 0 = PageResp.ok →
        executeAction p a =
          ({ success := true, error := none },
           [PageEvent.waitSelectorEv (a.selector.getD ""),
            PageEvent.waitTimeoutEv (jsDuration a.duration)])) ∧
       (∀ m, p 0 = PageResp.err m → a.selector ≠ some searchInputSelector →
         (executeAction p a).1.success = false))) ∧
    ((strIncludes (a.selector.getD "") "checkbox" = true ∨ a.type = some "checkbox") →
      (∀ n, p n = PageResp.ok) →
      executeAction p a =
        ({ success := true, error := none },
         [PageEvent.queryEv ".search-businesses-header-checkbox",
          PageEvent.clickEv ".search-businesses-header-checkbox",
          PageEvent.waitTimeoutEv 500])) ∧
    jsDuration none = 2000 ∧ jsDuration (some "soon") = 2000 := by
  obtain ⟨s, hs⟩ : ∃ s, a.selector = some s := by
    cases hsel : a.selector with
    | none => rw [hsel] at h2; simp [optTruthy] at h2
    | some s => exact ⟨s, rfl⟩
  have h2' : optTruthy (some s) = true := by rw [hs] at h2; exact h2
  have hforce : forceValidAction a = (s, "wait", a.value) := by
    rw [forceValidAction, h1, hs]
    simp [recognizedKind, h2']
  refine ⟨?_, ?_, by decide, by decide⟩
  · intro h3 h4
    have h3' : strIncludes s "checkbox" = false := by
      rw [hs] at h3; simpa using h3
    constructor
    · intro hp0
      simp +decide [executeAction, hforce, tryBody, hs, h3', h4, generalSeq, opF, opDelay,
        bind, Except.bind, pure, Except.pure, hp0]
    · intro m hp0 h5
      have hsne : s ≠ searchInputSelector := by
        intro hcon; exact h5 (by rw [hs, hcon])
      simp +decide [executeAction, hforce, tryBody, hs, h3', h4, hsne, generalSeq, opF, opDelay,
        bind, Except.bind, pure, Except.pure, hp0]
  · intro hcb hok
    have hcb' : (strIncludes (a.selector.getD "") "checkbox" || a.type == some "checkbox")
        = true := by
      rcases hcb with hcb | hcb
      · simp [hcb]
      · simp [hcb]
    simp +decide [executeAction, hforce, tryBody, hcb', checkboxLoop, checkboxSelectors,
      opBool, opF, opDelay, bind, Except.bind, pure, Except.pure, hok 0, hok 1]

/-- Witness for C7's amended theorem: the plain wait action waits for its
selector then delays the parsed 1500 ms and succeeds on an all-ok page,
fails when the visibility wait throws, and the checkbox-like wait action is
diverted to the checkbox protocol with no wait on its own selector and no
requested delay. -/
theorem wait_action_amended_witness :
    executeAction allOkPage demoWaitAction =
      ({ success := true, error := none },
       [PageEvent.waitSelectorEv "#content", PageEvent.waitTimeoutEv 1500]) ∧
    (executeAction firstOpFailsPage demoWaitAction).1.success = false ∧
    executeAction allOkPage demoWaitCheckboxAction =
      ({ success := true, error := none },
       [PageEvent.queryEv ".search-businesses-header-checkbox",
        PageEvent.clickEv ".search-businesses-header-checkbox",
        PageEvent.waitTimeoutEv 500]) :=
  ⟨((wait_action_amended allOkPage demoWaitAction (by decide) (by decide)).1 (by decide)
      (by decide)).1 rfl,
   ((wait_action_amended firstOpFailsPage demoWaitAction (by decide) (by decide)).1 (by decide)
      (by decide)).2 "Timeout 20000ms exceeded waiting for selector" rfl (by decide),
   (wait_action_amended allOkPage demoWaitCheckboxAction (by decide) (by decide)).2.1
      (Or.inl (by decide)) (fun n => rfl)⟩

/-- C6 (confirmed): an action with an unrecognized kind or falsy selector is
normalized rather than rejected — to a fill of the search input with the
extracted value when search-related fields are present, otherwise to a click
on the collapsible search-section header — and executing it then follows the
substituted default (shown succeeding on an all-ok page). -/
theorem invalid_action_normalized (p : Page) (a : ActionInput)
    (h : optTruthy a.selector = false ∨ recognizedKind a.action = false) :
    (hasSearchFields a = true →
      forceValidAction a = (searchInputSelector, "fill", some (forcedSearchValue a)) ∧
      ((∀ n, p n = PageResp.ok) → (executeAction p a).1.success = true)) ∧
    (hasSearchFields a = false →
      forceValidAction a = (searchHeaderSelector, "click", a.value) ∧
      (strIncludes (a.selector.getD "") "checkbox" = false → a.type ≠ some "checkbox" →
        (∀ n, p n = PageResp.ok) →
        executeAction p a =
          ({ success := true, error := none },
           [PageEvent.waitSelectorEv searchHeaderSelector, PageEvent.clickEv searchHeaderSelector,
            PageEvent.waitTimeoutEv 1000]))) := by
  have hbad : (!optTruthy a.selector || !recognizedKind a.action) = true := by
    rcases h with h | h <;> simp [h]
  constructor
  · intro hsf
    have hforce :
        forceValidAction a = (searchInputSelector, "fill", some (forcedSearchValue a)) := by
      simp [forceValidAction, hbad, hsf]
    refine ⟨hforce, ?_⟩
    intro hok
    simp +decide [executeAction, hforce, tryBody, searchFillSeq, opF, opDelay, opBool,
      bind, Except.bind, pure, Except.pure, hok 0, hok 1, hok 2, hok 3, hok 4,
      searchInputSelector]
  · intro hsf
    have hforce : forceValidAction a = (searchHeaderSelector, "click", a.value) := by
      simp [forceValidAction, hbad, hsf]
    refine ⟨hforce, ?_⟩
    intro h3 h4 hok
    simp +decide [executeAction, hforce, tryBody, h3, h4, generalSeq, opF, opDelay,
      bind, Except.bind, pure, Except.pure, hok 0, hok 1, searchHeaderSelector,
      searchInputSelector]

/-- Witness for C6 at the two concrete malformed actions: the plain one is
turned into a successful header click, the search-related one into a
successful fill of the search input with `pizza`. -/
theorem invalid_action_normalized_witness :
    (forceValidAction demoInvalidAction = (searchHeaderSelector, "click", none) ∧
      executeAction allOkPage demoInvalidAction =
        ({ success := true, error := none },
         [PageEvent.waitSelectorEv searchHeaderSelector, PageEvent.clickEv searchHeaderSelector,
          PageEvent.waitTimeoutEv 1000])) ∧
    forceValidAction demoInvalidSearchAction = (searchInputSelector, "fill", some "pizza") ∧
    (executeAction allOkPage demoInvalidSearchAction).1.success = true := by
  have h1 := (invalid_action_normalized allOkPage demoInvalidAction (Or.inr (by decide))).2
    (by decide)
  have h2 := (invalid_action_normalized allOkPage demoInvalidSearchAction (Or.inr (by decide))).1
    (by decide)
  exact ⟨⟨h1.1, h1.2 (by decide) (by decide) (fun n => rfl)⟩, h2.1, h2.2 (fun n => rfl)⟩

theorem range'_glue (s m n : Nat) :
    List.range' s m ++ List.range' (s + m) n = List.range' s (m + n) := by
  have h := List.range'_append s m n 1
  simp only [Nat.one_mul, Nat.add_comm n m] at h
  exact h

theorem lookupRec_mem {m : List (Handle × NodeRecord)} {h : Handle} {v : NodeRecord}
    (hl : lookupRec m h = some v) : (h, v) ∈ m := by
  induction m with
  | nil => simp [lookupRec] at hl
  | cons p rest ih =>
      obtain ⟨k, w⟩ := p
      rw [lookupRec] at hl
      by_cases hk : k = h
      · rw [if_pos hk] at hl
        cases hl
        subst hk
        exact List.mem_cons_self _ _
      · rw [if_neg hk] at hl
        exact List.mem_cons_of_mem _ (ih hl)

theorem inKeys_cons {p : Handle × NodeRecord} {m : List (Handle × NodeRecord)} {h : Handle}
    (hk : inKeys (p :: m) h) (hne : p.1 ≠ h) : inKeys m h := by
  obtain ⟨q, hq, hq1⟩ := hk
  rcases List.mem_cons.mp hq with rfl | hq'
  · exact absurd hq1 hne
  · exact ⟨q, hq', hq1⟩

theorem inKeys_append_left {m : List (Handle × NodeRecord)} (tl : List (Handle × NodeRecord))
    {h : Handle} (hk : inKeys m h) : inKeys (m ++ tl) h := by
  obtain ⟨q, hq, hq1⟩ := hk
  exact ⟨q, List.mem_append_left _ hq, hq1⟩

theorem lookupRec_append_of_inKeys {m : List (Handle × NodeRecord)}
    (tl : List (Handle × NodeRecord)) {h : Handle} (hk : inKeys m h) :
    lookupRec (m ++ tl) h = lookupRec m h := by
  induction m with
  | nil => obtain ⟨q, hq, _⟩ := hk; simp at hq
  | cons p rest ih =>
      obtain ⟨k, w⟩ := p
      by_cases hkh : k = h
      · simp [lookupRec, hkh]
      · rw [List.cons_append, lookupRec, lookupRec, if_neg hkh, if_neg hkh]
        exact ih (inKeys_cons hk hkh)

theorem lookupRec_append_fresh {m : List (Handle × NodeRecord)} {h : Handle} {v : NodeRecord}
    (hfr : ∀ p ∈ m, p.1 ≠ h) : lookupRec (m ++ [(h, v)]) h = some v := by
  induction m with
  | nil => simp [lookupRec]
  | cons p rest ih =>
      obtain ⟨k, w⟩ := p
      have hk : k ≠ h := hfr (k, w) (List.mem_cons_self _ _)
      rw [List.cons_append, lookupRec, if_neg hk]
      exact ih (fun q hq => hfr q (List.mem_cons_of_mem _ hq))

theorem collectIdx_append {m : List (Handle × NodeRecord)} (tl : List (Handle × NodeRecord))
    (hcl : mapClosed m) :
    ∀ (fuel : Nat) (h : Handle), inKeys m h →
      collectIdx (m ++ tl) fuel h = collectIdx m fuel h := by
  intro fuel
  induction fuel with
  | zero => intro h _; rfl
  | succ f ih =>
      intro h hk
      rw [collectIdx, collectIdx, lookupRec_append_of_inKeys tl hk]
      cases hl : lookupRec m h with
      | none => rfl
      | some v =>
          cases v with
          | elemRec r =>
              have hmem := lookupRec_mem hl
              have hchild : ∀ c ∈ r.children, inKeys m c :=
                hcl (h, NodeRecord.elemRec r) hmem r rfl
              have hmap : r.children.map (fun c => collectIdx (m ++ tl) f c) =
                  r.children.map (fun c => collectIdx m f c) :=
                List.map_congr_left (fun c hc => ih c (hchild c hc))
              simp only [hmap]
          | textRec t pt => rfl
          | errorRec msg => rfl

theorem boundedTree_append {m : List (Handle × NodeRecord)} (tl : List (Handle × NodeRecord))
    (hcl : mapClosed m) :
    ∀ (fuel : Nat) (h : Handle), inKeys m h → boundedTree m fuel h →
      boundedTree (m ++ tl) fuel h := by
  intro fuel
  induction fuel with
  | zero =>
      intro h hk hb r hl
      rw [lookupRec_append_of_inKeys tl hk] at hl
      exact hb r hl
  | succ f ih =>
      intro h hk hb r hl c hc
      rw [lookupRec_append_of_inKeys tl hk] at hl
      obtain ⟨hck, hcb⟩ := hb r hl c hc
      exact ⟨inKeys_append_left tl hck, ih c hck hcb⟩

theorem buildChildren_acc (b : Nat) (tag : String) :
    ∀ (nodes : List DomNode) (ids0 : List Handle) (st : BuildState),
      buildChildren b tag nodes (ids0, st) =
        (ids0 ++ (buildChildren b tag nodes ([], st)).1,
         (buildChildren b tag nodes ([], st)).2) := by
  intro nodes
  induction nodes with
  | nil => intro ids0 st; simp [buildChildren]
  | cons n ns ihn =>
      intro ids0 st
      simp only [buildChildren, List.foldl_cons]
      rcases hres : buildDomTree b n (some tag) st with ⟨cid, st1⟩
      cases cid with
      | some i =>
          have e1 : childStep b tag (ids0, st) n = (ids0 ++ [i], st1) := by
            simp [childStep, childStepF, hres]
          have e2 : childStep b tag ([], st) n = ([i], st1) := by
            simp [childStep, childStepF, hres]
          rw [e1, e2]
          rw [show List.foldl (childStep b tag) (ids0 ++ [i], st1) ns =
                buildChildren b tag ns (ids0 ++ [i], st1) from rfl,
              show List.foldl (childStep b tag) ([i], st1) ns =
                buildChildren b tag ns ([i], st1) from rfl,
              ihn (ids0 ++ [i]) st1, ihn [i] st1]
          simp
      | none =>
          have e1 : childStep b tag (ids0, st) n = (ids0, st1) := by
            simp [childStep, childStepF, hres]
          have e2 : childStep b tag ([], st) n = ([], st1) := by
            simp [childStep, childStepF, hres]
          rw [e1, e2]
          rw [show List.foldl (childStep b tag) (ids0, st1) ns =
                buildChildren b tag ns (ids0, st1) from rfl,
              show List.foldl (childStep b tag) ([], st1) ns =
                buildChildren b tag ns ([], st1) from rfl,
              ihn ids0 st1]

theorem buildChildren_postAux (b : Nat) (tag : String)
    (ih : ∀ (node : DomNode) (pt : Option String) (st : BuildState), StateOK st →
      BuildPost b st (buildDomTree b node pt st)) :
    ∀ (nodes : List DomNode) (st : BuildState), StateOK st →
      ChildrenPost b st (buildChildren b tag nodes ([], st)) := by
  intro nodes
  induction nodes with
  | nil =>
      intro st hst
      refine ⟨hst, le_refl _, le_refl _, ⟨[], by simp [buildChildren]⟩, ?_, ?_⟩
      · intro i hi; simp [buildChildren] at hi
      · simp [buildChildren]
  | cons n ns ihn =>
      intro st hst
      have hpost := ih n (some tag) st hst
      rcases hres : buildDomTree b n (some tag) st with ⟨cid, st1⟩
      rw [hres] at hpost
      dsimp only [BuildPost] at hpost
      obtain ⟨hok1, hid1, hhi1, ⟨tl1, hm1⟩, hnone, hsome⟩ := hpost
      have hstep : buildChildren b tag (n :: ns) ([], st) =
          buildChildren b tag ns (childStep b tag ([], st) n) := by
        simp only [buildChildren, List.foldl_cons]
      cases cid with
      | none =>
          have hst1 : st1 = st := hnone rfl
          have e2 : childStep b tag ([], st) n = ([], st) := by
            simp [childStep, childStepF, hres, hst1]
          rw [hstep, e2]
          exact ihn st hst
      | some i =>
          have e2 : childStep b tag ([], st) n = ([i], st1) := by simp [childStep, childStepF, hres]
          rw [hstep, e2, buildChildren_acc b tag ns [i] st1]
          obtain ⟨hii1, hii2, hik, hcoll, hbnd⟩ := hsome i rfl
          rcases hrest : buildChildren b tag ns ([], st1) with ⟨ids2, st2⟩
          have hpost2 := ihn st1 hok1
          rw [hrest] at hpost2
          dsimp only [ChildrenPost] at hpost2
          obtain ⟨hok2, hid2, hhi2, ⟨tl2, hm2⟩, hmem2, hcoll2⟩ := hpost2
          refine ⟨hok2, le_trans hid1 hid2, le_trans hhi1 hhi2,
            ⟨tl1 ++ tl2, by rw [hm2, hm1, List.append_assoc]⟩, ?_, ?_⟩
          · intro j hj
            rcases List.mem_cons.mp (by simpa using hj) with rfl | hj'
            · refine ⟨?_, ?_⟩
              · rw [hm2]; exact inKeys_append_left tl2 hik
              · rw [hm2]; exact boundedTree_append tl2 hok1.closedMap b j hik hbnd
            · exact hmem2 j hj'
          · have hstab : collectIdx st2.map (b + 1) i = collectIdx st1.map (b + 1) i := by
              rw [hm2]
              exact collectIdx_append tl2 hok1.closedMap (b + 1) i hik
            simp only [List.cons_append, List.nil_append, List.map_cons, List.flatten_cons]
            rw [hstab, hcoll, hcoll2]
            have harith : st.highlightIndex + (st1.highlightIndex - st.highlightIndex) =
                st1.highlightIndex := by omega
            have hglue := range'_glue st.highlightIndex
              (st1.highlightIndex - st.highlightIndex) (st2.highlightIndex - st1.highlightIndex)
            rw [harith] at hglue
            rw [hglue]
            congr 1
            omega

theorem Handle.ne_of_num_ne {a b : Handle} (h : Handle.num a ≠ Handle.num b) : a ≠ b := by
  intro he; exact h (he ▸ rfl)

theorem boundedTree_of_nonElem {m : List (Handle × NodeRecord)} {h : Handle}
    (hne : ∀ r, lookupRec m h = some (NodeRecord.elemRec r) → False) :
    ∀ fuel, boundedTree m fuel h := by
  intro fuel
  cases fuel with
  | zero => intro r hr; exact absurd hr (fun hh => hne r hh)
  | succ f => intro r hr; exact absurd hr (fun hh => hne r hh)

theorem freshKeys {st : BuildState} (hst : StateOK st) {h : Handle}
    (hnum : st.idCurrent ≤ Handle.num h) : ∀ p ∈ st.map, p.1 ≠ h := by
  intro p hp
  exact Handle.ne_of_num_ne (by have := hst.fresh p hp; omega)

theorem lookup_insert {st : BuildState} (hst : StateOK st) (v : NodeRecord) :
    lookupRec (st.map ++ [(Handle.element st.idCurrent, v)]) (Handle.element st.idCurrent) =
      some v :=
  lookupRec_append_fresh (freshKeys hst (by simp [Handle.num]))

theorem stateOK_insert (stIns : BuildState) (hOK : StateOK stIns)
    (v : NodeRecord) (rid : Option Handle)
    (hshape : recShape v)
    (hvchild : ∀ r, v = NodeRecord.elemRec r → ∀ c ∈ r.children, inKeys stIns.map c)
    (hvidx : ∀ r, v = NodeRecord.elemRec r →
      ∀ i, r.highlightIndex = some i → i < stIns.highlightIndex) :
    StateOK { highlightIndex := stIns.highlightIndex, idCurrent := stIns.idCurrent + 1,
              map := stIns.map ++ [(Handle.element stIns.idCurrent, v)], rootId := rid } := by
  constructor
  · intro p hp
    rcases List.mem_append.mp hp with hp' | hp'
    · have := hOK.fresh p hp'; simp only; omega
    · simp only [List.mem_singleton] at hp'
      subst hp'
      simp [Handle.num]
  · intro p hp r hr c hc
    rcases List.mem_append.mp hp with hp' | hp'
    · exact inKeys_append_left _ (hOK.closedMap p hp' r hr c hc)
    · simp only [List.mem_singleton] at hp'
      subst hp'
      exact inKeys_append_left _ (hvchild r hr c hc)
  · intro p hp
    rcases List.mem_append.mp hp with hp' | hp'
    · exact hOK.shape p hp'
    · simp only [List.mem_singleton] at hp'
      subst hp'
      exact hshape
  · intro p hp r hr i hi
    rcases List.mem_append.mp hp with hp' | hp'
    · exact hOK.idxlt p hp' r hr i hi
    · simp only [List.mem_singleton] at hp'
      subst hp'
      exact hvidx r hr i hi

theorem buildDomTree_text_post (budget : Nat) (content : String) (pt : Option String)
    (st : BuildState) (hst : StateOK st) :
    BuildPost budget st (buildDomTree budget (DomNode.text content) pt st) := by
  rw [buildDomTree]
  by_cases htrim : jsTrim content = ""
  · rw [if_pos htrim]
    exact ⟨hst, le_refl _, le_refl _, ⟨[], by simp⟩, fun _ => rfl, fun id h => by cases h⟩
  · rw [if_neg htrim]
    dsimp only
    set id := Handle.text st.idCurrent with hid
    set v := NodeRecord.textRec (jsTrim content) pt with hv
    have hnum : st.idCurrent ≤ Handle.num id := le_refl _
    have hlook : lookupRec (st.map ++ [(id, v)]) id = some v :=
      lookupRec_append_fresh (freshKeys hst hnum)
    have hOK' : StateOK { st with idCurrent := st.idCurrent + 1, map := st.map ++ [(id, v)] } := by
      constructor
      · intro p hp
        rcases List.mem_append.mp hp with hp' | hp'
        · have := hst.fresh p hp'; simp only; omega
        · simp only [List.mem_singleton] at hp'; subst hp'; simp [hid, Handle.num]
      · intro p hp r hr c hc
        rcases List.mem_append.mp hp with hp' | hp'
        · exact inKeys_append_left _ (hst.closedMap p hp' r hr c hc)
        · simp only [List.mem_singleton] at hp'; subst hp'; cases hr
      · intro p hp
        rcases List.mem_append.mp hp with hp' | hp'
        · exact hst.shape p hp'
        · simp only [List.mem_singleton] at hp'; subst hp'; trivial
      · intro p hp r hr i hi
        rcases List.mem_append.mp hp with hp' | hp'
        · exact hst.idxlt p hp' r hr i hi
        · simp only [List.mem_singleton] at hp'; subst hp'; cases hr
    refine ⟨hOK', ?_, ?_, ?_, ?_, ?_⟩
    · simp
    · exact le_refl _
    · exact ⟨[(id, v)], rfl⟩
    · intro h; cases h
    · intro id' hid'
      cases hid'
      refine ⟨le_refl _, by rw [hid]; simp [Handle.num], ?_, ?_, ?_⟩
      · exact ⟨(id, v), List.mem_append_right _ (List.mem_singleton.mpr rfl), rfl⟩
      · rw [collectIdx]
        dsimp only
        rw [hlook]
        simp [hv]
      · exact boundedTree_of_nonElem (fun r hr => by simp [hlook, hv] at hr) budget

theorem nonePost (budget : Nat) (st : BuildState) (hst : StateOK st) :
    BuildPost budget st (none, st) :=
  ⟨hst, le_refl _, le_refl _, ⟨[], by simp⟩, fun _ => rfl, fun id h => by cases h⟩

theorem stateOK_bump (st : BuildState) (hst : StateOK st) :
    StateOK { st with highlightIndex := st.highlightIndex + 1 } := by
  constructor
  · exact hst.fresh
  · exact hst.closedMap
  · exact hst.shape
  · intro p hp r hr i hi
    have := hst.idxlt p hp r hr i hi
    simp only
    omega

theorem recShape_new (d : ElemData) (tagName : String) (attrs : List (String × String))
    (childIds : List Handle) (hi : Nat) :
    recShape (NodeRecord.elemRec
      { tagName := tagName, attributes := attrs, children := childIds,
        isVisible := isElementVisible d,
        isInteractive := if isElementVisible d then some (isInteractiveElement d) else none,
        highlightIndex := if isElementVisible d && isInteractiveElement d then some hi
          else none }) := by
  cases hv : isElementVisible d <;> cases hi2 : isInteractiveElement d <;>
    simp [recShape]

theorem buildDomTree_element_zero_post (d : ElemData) (children : List DomNode)
    (pt : Option String) (st : BuildState) (hst : StateOK st) :
    BuildPost 0 st (buildDomTree 0 (DomNode.element d children) pt st) := by
  rw [buildDomTree]
  by_cases hcont : getAttr d.attributes "id" = some "playwright-highlight-container"
  · rw [if_pos hcont]; exact nonePost _ _ hst
  · rw [if_neg hcont]
    by_cases hskip : lowerAscii d.tagName = "script" ∨ lowerAscii d.tagName = "style" ∨
        lowerAscii d.tagName = "noscript"
    · rw [if_pos hskip]; exact nonePost _ _ hst
    · rw [if_neg hskip]
      dsimp only
      cases hA : isElementVisible d && isInteractiveElement d with
      | true =>
          simp only [hA, if_true]
          have hOKb := stateOK_bump st hst
          have hshape := recShape_new d (lowerAscii d.tagName) d.attributes [] st.highlightIndex
          rw [hA] at hshape
          simp only [if_true] at hshape
          have hOK' := stateOK_insert { st with highlightIndex := st.highlightIndex + 1 } hOKb
            (NodeRecord.elemRec
              { tagName := lowerAscii d.tagName, attributes := d.attributes, children := [],
                isVisible := isElementVisible d,
                isInteractive := if isElementVisible d = true then some (isInteractiveElement d)
                  else none,
                highlightIndex := some st.highlightIndex })
            (if lowerAscii d.tagName = "body" then some (Handle.element st.idCurrent)
              else st.rootId)
            hshape
            (fun r hr c hc => by cases hr; simp at hc)
            (fun r hr i hi => by cases hr; cases hi; simp)
          have hlook := lookup_insert hOKb (NodeRecord.elemRec
              { tagName := lowerAscii d.tagName, attributes := d.attributes, children := [],
                isVisible := isElementVisible d,
                isInteractive := if isElementVisible d = true then some (isInteractiveElement d)
                  else none,
                highlightIndex := some st.highlightIndex })
          refine ⟨hOK', ?_, ?_, ?_, ?_, ?_⟩
          · simp
          · simp
          · exact ⟨[_], rfl⟩
          · intro h; cases h
          · intro id' hid'
            cases hid'
            refine ⟨le_refl _, by simp [Handle.num], ?_, ?_, ?_⟩
            · exact ⟨_, List.mem_append_right _ (List.mem_singleton.mpr rfl), rfl⟩
            · rw [collectIdx]
              dsimp only
              rw [hlook]
              simp
            · intro r hr
              rw [hlook] at hr
              cases hr
              rfl
      | false =>
          simp only [hA, Bool.false_eq_true, if_false]
          have hshape := recShape_new d (lowerAscii d.tagName) d.attributes [] st.highlightIndex
          rw [hA] at hshape
          simp only [Bool.false_eq_true, if_false] at hshape
          have hOK' := stateOK_insert st hst
            (NodeRecord.elemRec
              { tagName := lowerAscii d.tagName, attributes := d.attributes, children := [],
                isVisible := isElementVisible d,
                isInteractive := if isElementVisible d = true then some (isInteractiveElement d)
                  else none,
                highlightIndex := none })
            (if lowerAscii d.tagName = "body" then some (Handle.element st.idCurrent)
              else st.rootId)
            hshape
            (fun r hr c hc => by cases hr; simp at hc)
            (fun r hr i hi => by cases hr; cases hi)
          have hlook := lookup_insert hst (NodeRecord.elemRec
              { tagName := lowerAscii d.tagName, attributes := d.attributes, children := [],
                isVisible := isElementVisible d,
                isInteractive := if isElementVisible d = true then some (isInteractiveElement d)
                  else none,
                highlightIndex := none })
          refine ⟨hOK', ?_, ?_, ?_, ?_, ?_⟩
          · simp
          · exact le_refl _
          · exact ⟨[_], rfl⟩
          · intro h; cases h
          · intro id' hid'
            cases hid'
            refine ⟨le_refl _, by simp [Handle.num], ?_, ?_, ?_⟩
            · exact ⟨_, List.mem_append_right _ (List.mem_singleton.mpr rfl), rfl⟩
            · rw [collectIdx]
              dsimp only
              rw [hlook]
              simp
            · intro r hr
              rw [hlook] at hr
              cases hr
              rfl

theorem foldl_eq_buildChildren (b : Nat) (tagName : String) (children : List DomNode)
    (init : List Handle × BuildState) :
    List.foldl (childStepF (fun child st2 => buildDomTree b child (some tagName) st2))
      init children = buildChildren b tagName children init := rfl

theorem buildDomTree_element_succ_post (b : Nat)
    (ihb : ∀ (node : DomNode) (pt : Option String) (st : BuildState), StateOK st →
      BuildPost b st (buildDomTree b node pt st))
    (d : ElemData) (children : List DomNode) (pt : Option String) (st : BuildState)
    (hst : StateOK st) :
    BuildPost (b + 1) st (buildDomTree (b + 1) (DomNode.element d children) pt st) := by
  rw [buildDomTree]
  by_cases hcont : getAttr d.attributes "id" = some "playwright-highlight-container"
  · rw [if_pos hcont]; exact nonePost _ _ hst
  · rw [if_neg hcont]
    by_cases hskip : lowerAscii d.tagName = "script" ∨ lowerAscii d.tagName = "style" ∨
        lowerAscii d.tagName = "noscript"
    · rw [if_pos hskip]; exact nonePost _ _ hst
    · rw [if_neg hskip]
      dsimp only
      cases hA : isElementVisible d && isInteractiveElement d with
      | true =>
          simp only [hA, if_true]
          rw [foldl_eq_buildChildren]
          have hOKb := stateOK_bump st hst
          have hcp := buildChildren_postAux b (lowerAscii d.tagName) ihb children
            { highlightIndex := st.highlightIndex + 1, idCurrent := st.idCurrent,
              map := st.map, rootId := st.rootId } hOKb
          rcases hch : buildChildren b (lowerAscii d.tagName) children
              ([], { highlightIndex := st.highlightIndex + 1, idCurrent := st.idCurrent,
                     map := st.map, rootId := st.rootId }) with ⟨childIds, st1⟩
          rw [hch] at hcp
          dsimp only [ChildrenPost] at hcp
          obtain ⟨hok1, hid1, hhi1, ⟨tl1, hm1⟩, hmem1, hcoll1⟩ := hcp
          dsimp only
          have hshape := recShape_new d (lowerAscii d.tagName) d.attributes childIds
            st.highlightIndex
          rw [hA] at hshape
          simp only [if_true] at hshape
          have hOK' := stateOK_insert st1 hok1
            (NodeRecord.elemRec
              { tagName := lowerAscii d.tagName, attributes := d.attributes,
                children := childIds, isVisible := isElementVisible d,
                isInteractive := if isElementVisible d = true then some (isInteractiveElement d)
                  else none,
                highlightIndex := some st.highlightIndex })
            (if lowerAscii d.tagName = "body" then some (Handle.element st1.idCurrent)
              else st1.rootId)
            hshape
            (fun r hr c hc => by cases hr; exact (hmem1 c hc).1)
            (fun r hr i hi => by cases hr; cases hi; omega)
          have hlook := lookup_insert hok1 (NodeRecord.elemRec
              { tagName := lowerAscii d.tagName, attributes := d.attributes,
                children := childIds, isVisible := isElementVisible d,
                isInteractive := if isElementVisible d = true then some (isInteractiveElement d)
                  else none,
                highlightIndex := some st.highlightIndex })
          refine ⟨hOK', ?_, ?_, ?_, ?_, ?_⟩
          · simp only; omega
          · simp only; omega
          · exact ⟨tl1 ++ [_], by simp only [hm1]; rw [List.append_assoc]⟩
          · intro h; cases h
          · intro id' hid'
            cases hid'
            refine ⟨by simp [Handle.num]; omega, by simp [Handle.num], ?_, ?_, ?_⟩
            · exact ⟨_, List.mem_append_right _ (List.mem_singleton.mpr rfl), rfl⟩
            · rw [collectIdx]
              dsimp only
              rw [hlook]
              dsimp only
              have hmap : childIds.map
                    (fun c => collectIdx (st1.map ++
                      [(Handle.element st1.idCurrent, NodeRecord.elemRec
                        { tagName := lowerAscii d.tagName, attributes := d.attributes,
                          children := childIds, isVisible := isElementVisible d,
                          isInteractive := if isElementVisible d = true
                            then some (isInteractiveElement d) else none,
                          highlightIndex := some st.highlightIndex })]) (b + 1) c) =
                  childIds.map (fun c => collectIdx st1.map (b + 1) c) :=
                List.map_congr_left
                  (fun c hc => collectIdx_append _ hok1.closedMap (b + 1) c (hmem1 c hc).1)
              rw [hmap, hcoll1]
              have hn : st1.highlightIndex - st.highlightIndex =
                  (st1.highlightIndex - (st.highlightIndex + 1)) + 1 := by omega
              rw [hn, List.range'_succ]
              simp
            · intro r hr
              rw [hlook] at hr
              cases hr
              intro c hc
              exact ⟨inKeys_append_left _ (hmem1 c hc).1,
                boundedTree_append _ hok1.closedMap b c (hmem1 c hc).1 (hmem1 c hc).2⟩
      | false =>
          simp only [hA, Bool.false_eq_true, if_false]
          rw [foldl_eq_buildChildren]
          have hcp := buildChildren_postAux b (lowerAscii d.tagName) ihb children st hst
          rcases hch : buildChildren b (lowerAscii d.tagName) children ([], st)
            with ⟨childIds, st1⟩
          rw [hch] at hcp
          dsimp only [ChildrenPost] at hcp
          obtain ⟨hok1, hid1, hhi1, ⟨tl1, hm1⟩, hmem1, hcoll1⟩ := hcp
          dsimp only
          have hshape := recShape_new d (lowerAscii d.tagName) d.attributes childIds
            st.highlightIndex
          rw [hA] at hshape
          simp only [Bool.false_eq_true, if_false] at hshape
          have hOK' := stateOK_insert st1 hok1
            (NodeRecord.elemRec
              { tagName := lowerAscii d.tagName, attributes := d.attributes,
                children := childIds, isVisible := isElementVisible d,
                isInteractive := if isElementVisible d = true then some (isInteractiveElement d)
                  else none,
                highlightIndex := none })
            (if lowerAscii d.tagName = "body" then some (Handle.element st1.idCurrent)
              else st1.rootId)
            hshape
            (fun r hr c hc => by cases hr; exact (hmem1 c hc).1)
            (fun r hr i hi => by cases hr; cases hi)
          have hlook := lookup_insert hok1 (NodeRecord.elemRec
              { tagName := lowerAscii d.tagName, attributes := d.attributes,
                children := childIds, isVisible := isElementVisible d,
                isInteractive := if isElementVisible d = true then some (isInteractiveElement d)
                  else none,
                highlightIndex := none })
          refine ⟨hOK', ?_, ?_, ?_, ?_, ?_⟩
          · simp only; omega
          · simp only; omega
          · exact ⟨tl1 ++ [_], by simp only [hm1]; rw [List.append_assoc]⟩
          · intro h; cases h
          · intro id' hid'
            cases hid'
            refine ⟨by simp [Handle.num]; omega, by simp [Handle.num], ?_, ?_, ?_⟩
            · exact ⟨_, List.mem_append_right _ (List.mem_singleton.mpr rfl), rfl⟩
            · rw [collectIdx]
              dsimp only
              rw [hlook]
              dsimp only
              have hmap : childIds.map
                    (fun c => collectIdx (st1.map ++
                      [(Handle.element st1.idCurrent, NodeRecord.elemRec
                        { tagName := lowerAscii d.tagName, attributes := d.attributes,
                          children := childIds, isVisible := isElementVisible d,
                          isInteractive := if isElementVisible d = true
                            then some (isInteractiveElement d) else none,
                          highlightIndex := none })]) (b + 1) c) =
                  childIds.map (fun c => collectIdx st1.map (b + 1) c) :=
                List.map_congr_left
                  (fun c hc => collectIdx_append _ hok1.closedMap (b + 1) c (hmem1 c hc).1)
              rw [hmap, hcoll1]
              simp
            · intro r hr
              rw [hlook] at hr
              cases hr
              intro c hc
              exact ⟨inKeys_append_left _ (hmem1 c hc).1,
                boundedTree_append _ hok1.closedMap b c (hmem1 c hc).1 (hmem1 c hc).2⟩

theorem buildDomTree_post :
    ∀ (budget : Nat) (node : DomNode) (pt : Option String) (st : BuildState),
      StateOK st → BuildPost budget st (buildDomTree budget node pt st) := by
  intro budget
  induction budget with
  | zero =>
      intro node pt st hst
      cases node with
      | text content => exact buildDomTree_text_post 0 content pt st hst
      | element d children => exact buildDomTree_element_zero_post d children pt st hst
  | succ b ihb =>
      intro node pt st hst
      cases node with
      | text content => exact buildDomTree_text_post (b + 1) content pt st hst
      | element d children => exact buildDomTree_element_succ_post b ihb d children pt st hst

theorem initState_OK : StateOK initState :=
  ⟨fun p hp => by simp [initState] at hp, fun p hp => by simp [initState] at hp,
   fun p hp => by simp [initState] at hp, fun p hp => by simp [initState] at hp⟩

/-- C1 (confirmed): every handle appearing in any element record's
`children` array of a snapshot exists as a key of the snapshot map — nodes
filtered out (script/style/noscript, the tool's own status container, empty
text nodes, nodes beyond the depth bound) are omitted from `children`, never
left dangling. -/
theorem snapshot_children_closed (dh : Bool) (fi ve : Int) (dbg : Bool)
    (body? : Option DomNode) :
    ∀ p ∈ (buildAdvancedDomSnapshot dh fi ve dbg body?).map, ∀ r,
      p.2 = NodeRecord.elemRec r →
      ∀ c ∈ r.children, inKeys (buildAdvancedDomSnapshot dh fi ve dbg body?).map c := by
  cases body? with
  | none =>
      intro p hp r hr c hc
      have hp' : p = (Handle.root 0, NodeRecord.errorRec "No document.body available") := by
        simpa [buildAdvancedDomSnapshot] using hp
      rw [hp'] at hr
      simp at hr
  | some body =>
      have hpost := buildDomTree_post 20 body none initState initState_OK
      exact fun p hp r hr c hc => hpost.1.closedMap p hp r hr c hc

/-- Witness for C1: a child handle of the demo body's record is a key of the
demo snapshot. -/
theorem snapshot_children_closed_witness :
    inKeys (buildAdvancedDomSnapshot false (-1) 0 false (some demoBody)).map
      (Handle.element 0) :=
  snapshot_children_closed false (-1) 0 false (some demoBody)
    (Handle.element 3, NodeRecord.elemRec demoBodyRec) (by decide) demoBodyRec rfl
    (Handle.element 0) (by decide)

/-- C2 (confirmed): in every snapshot, a record carries a highlight index
exactly when it is visible and interactive, an invisible record never
carries `isInteractive = true` or an index, and the indices — read in
pre-order from the root — are exactly the dense sequence `0..k-1` with no
gaps or repeats, `k` bounding every index stored in the map. -/
theorem highlight_dense_preorder (dh : Bool) (fi ve : Int) (dbg : Bool) (body : DomNode) :
    (∀ p ∈ (buildAdvancedDomSnapshot dh fi ve dbg (some body)).map, ∀ r,
      p.2 = NodeRecord.elemRec r →
        ((r.highlightIndex.isSome = true ↔ (r.isVisible = true ∧ r.isInteractive = some true)) ∧
         (r.isVisible = false → r.isInteractive = none ∧ r.highlightIndex = none))) ∧
    (∀ root, (buildAdvancedDomSnapshot dh fi ve dbg (some body)).rootId = some root →
      ∃ k, collectIdx (buildAdvancedDomSnapshot dh fi ve dbg (some body)).map 21 root =
          List.range k ∧
        ∀ p ∈ (buildAdvancedDomSnapshot dh fi ve dbg (some body)).map, ∀ r,
          p.2 = NodeRecord.elemRec r → ∀ i, r.highlightIndex = some i → i < k) := by
  have hpost := buildDomTree_post 20 body none initState initState_OK
  obtain ⟨hOK, _, _, _, _, hsome⟩ := hpost
  constructor
  · intro p hp r hr
    have hs := hOK.shape p hp
    rw [hr] at hs
    simp only [recShape] at hs
    exact ⟨hs.2.2, hs.2.1⟩
  · intro root hrt
    obtain ⟨_, _, _, hcol, _⟩ := hsome root hrt
    refine ⟨(buildDomTree 20 body none initState).2.highlightIndex, ?_, ?_⟩
    · rw [List.range_eq_range']
      simpa [initState] using hcol
    · intro p hp r hr i hi
      exact hOK.idxlt p hp r hr i hi

/-- Witness for C2: the demo button record satisfies the exactness clause,
and the indices collected in pre-order from the demo snapshot's root form
`List.range k`. -/
theorem highlight_dense_preorder_witness :
    ((demoButtonRec.highlightIndex.isSome = true ↔
        (demoButtonRec.isVisible = true ∧ demoButtonRec.isInteractive = some true)) ∧
      (demoButtonRec.isVisible = false →
        demoButtonRec.isInteractive = none ∧ demoButtonRec.highlightIndex = none)) ∧
    ∃ k, collectIdx (buildAdvancedDomSnapshot false (-1) 0 false (some demoBody)).map 21
        (Handle.element 3) = List.range k := by
  refine ⟨(highlight_dense_preorder false (-1) 0 false demoBody).1
      (Handle.element 0, NodeRecord.elemRec demoButtonRec) (by decide) demoButtonRec rfl, ?_⟩
  obtain ⟨k, hk, _⟩ := (highlight_dense_preorder false (-1) 0 false demoBody).2
    (Handle.element 3) (by decide)
  exact ⟨k, hk⟩

theorem reach_le_of_bounded {m : List (Handle × NodeRecord)} {root : Handle} (j : Nat)
    (hb : boundedTree m j root) :
    ∀ {k : Nat} {h : Handle}, reach m root k h → k ≤ j ∧ boundedTree m (j - k) h := by
  intro k h hr
  induction hr with
  | refl => exact ⟨Nat.zero_le _, by simpa using hb⟩
  | step hprev hlook hmem ih =>
      obtain ⟨hk, hbh⟩ := ih
      rename_i k' h' r' c'
      cases hjk : j - k' with
      | zero =>
          rw [hjk] at hbh
          have hnil := hbh r' hlook
          rw [hnil] at hmem
          simp at hmem
      | succ s =>
          rw [hjk] at hbh
          obtain ⟨hik, hbc⟩ := hbh r' hlook c' hmem
          refine ⟨by omega, ?_⟩
          have hjs : j - (k' + 1) = s := by omega
          rw [hjs]
          exact hbc

/-- C4 (confirmed): `buildDomTree` recurses only while the depth is strictly
below 20, so in any snapshot no chain of child links from the root is longer
than 20, and every element record reached at depth exactly 20 has an empty
`children` array (deeper nodes are silently omitted, with no
placeholders). -/
theorem depth_bound_of_snapshot (dh : Bool) (fi ve : Int) (dbg : Bool) (body : DomNode) :
    ∀ root, (buildAdvancedDomSnapshot dh fi ve dbg (some body)).rootId = some root →
    ∀ k h, reach (buildAdvancedDomSnapshot dh fi ve dbg (some body)).map root k h →
      k ≤ 20 ∧
      (k = 20 → ∀ r,
        lookupRec (buildAdvancedDomSnapshot dh fi ve dbg (some body)).map h =
          some (NodeRecord.elemRec r) → r.children = []) := by
  intro root hrt k h hreach
  have hpost := buildDomTree_post 20 body none initState initState_OK
  obtain ⟨_, _, _, _, _, hsome⟩ := hpost
  obtain ⟨_, _, _, _, hbnd⟩ := hsome root hrt
  obtain ⟨hk, hb⟩ := reach_le_of_bounded 20 hbnd hreach
  refine ⟨hk, ?_⟩
  intro hk20 r hl
  subst hk20
  exact hb r hl

/-- Witness for C4: one child step from the demo snapshot's root is within
the bound. -/
theorem depth_bound_of_snapshot_witness :
    (1 ≤ 20) ∧ (1 = 20 → ∀ r,
      lookupRec (buildAdvancedDomSnapshot false (-1) 0 false (some demoBody)).map
        (Handle.element 0) = some (NodeRecord.elemRec r) → r.children = []) :=
  depth_bound_of_snapshot false (-1) 0 false demoBody (Handle.element 3) (by decide) 1
    (Handle.element 0)
    (reach.step (r := demoBodyRec) reach.refl (by decide) (by decide))

/-- C10 (confirmed): an element record whose visibility test failed carries
neither an `isInteractive` nor a `highlightIndex` field (both absent, not
`false`), while every visible element's record carries an explicit
`isInteractive` boolean — so the record shape is not uniform across visible
and invisible elements. -/
theorem invisible_record_fields_absent (dh : Bool) (fi ve : Int) (dbg : Bool)
    (body? : Option DomNode) :
    ∀ p ∈ (buildAdvancedDomSnapshot dh fi ve dbg body?).map, ∀ r,
      p.2 = NodeRecord.elemRec r →
      (r.isVisible = false → r.isInteractive = none ∧ r.highlightIndex = none) ∧
      (r.isVisible = true → ∃ b, r.isInteractive = some b) := by
  cases body? with
  | none =>
      intro p hp r hr
      have hp' : p = (Handle.root 0, NodeRecord.errorRec "No document.body available") := by
        simpa [buildAdvancedDomSnapshot] using hp
      rw [hp'] at hr
      simp at hr
  | some body =>
      have hpost := buildDomTree_post 20 body none initState initState_OK
      intro p hp r hr
      have hs := hpost.1.shape p hp
      rw [hr] at hs
      simp only [recShape] at hs
      exact ⟨hs.2.1, hs.1⟩

/-- Witness for C10: in the demo snapshot the hidden button's record has
both fields absent and the visible button's record has an explicit
boolean. -/
theorem invisible_record_fields_absent_witness :
    (demoHiddenRec.isInteractive = none ∧ demoHiddenRec.highlightIndex = none) ∧
    ∃ b, demoButtonRec.isInteractive = some b :=
  ⟨(invisible_record_fields_absent false (-1) 0 false (some demoBody)
      (Handle.element 1, NodeRecord.elemRec demoHiddenRec) (by decide) demoHiddenRec rfl).1
      rfl,
   (invisible_record_fields_absent false (-1) 0 false (some demoBody)
      (Handle.element 0, NodeRecord.elemRec demoButtonRec) (by decide) demoButtonRec rfl).2
      rfl⟩
